import Mathlib

/-
Verification development for the fiesta-net network core
(src/client.rs, src/packetproc.rs): framing, extraction, readiness
handling, dispatch.  Bytes are modelled as natural numbers below 256,
buffers as lists of bytes, socket I/O outcomes as explicit oracle values.
-/

/-- Modelled from the spec: the byte-buffer collaborator (module buffer,
absent from src/), per the section 6 contract: append, peek_u8, peek_u16
(little endian), peek_max, advance_read, bytes_remaining, with read_u16 and
read_bytes as the consuming reads used by client.rs.  A Buffer is the list
of unread bytes. -/
structure Buffer where
  data : List Nat
deriving DecidableEq

/-- Modelled from the spec: bytes_remaining reports the unread byte count. -/
def Buffer.bytes_remaining (b : Buffer) : Nat := b.data.length

/-- Modelled from the spec: append adds bytes at the back. -/
def Buffer.append (b : Buffer) (xs : List Nat) : Buffer := ⟨b.data ++ xs⟩

/-- Modelled from the spec: peek_u8 reads the byte at an offset without
consuming, failing on insufficient data. -/
def Buffer.peek_u8 (b : Buffer) (off : Nat) : Option Nat := b.data.get? off

/-- Modelled from the spec: peek_u16 reads a little-endian 16-bit value at
an offset without consuming, failing on insufficient data. -/
def Buffer.peek_u16 (b : Buffer) (off : Nat) : Option Nat :=
  match b.data.get? off, b.data.get? (off + 1) with
  | some lo, some hi => some (lo + 256 * hi)
  | _, _ => none

/-- Modelled from the spec: advance_read consumes n bytes from the front,
failing on insufficient data. -/
def Buffer.advance_read (b : Buffer) (n : Nat) : Option Buffer :=
  if n ≤ b.data.length then some ⟨b.data.drop n⟩ else none

/-- Helper: the source discards the result of advance_read, so a failing
advance (unreachable under the extraction guard) leaves the buffer as is. -/
def Buffer.advance_ignore (b : Buffer) (n : Nat) : Buffer :=
  match b.advance_read n with
  | some b2 => b2
  | none => b

/-- Modelled from the spec: read_u16 consumes two bytes and returns them as
a little-endian 16-bit value, failing on insufficient data. -/
def Buffer.read_u16 (b : Buffer) : Option (Nat × Buffer) :=
  match b.data with
  | lo :: hi :: rest => some (lo + 256 * hi, ⟨rest⟩)
  | _ => none

/-- Modelled from the spec: read_bytes consumes and returns n bytes from
the front, failing on insufficient data. -/
def Buffer.read_bytes (b : Buffer) (n : Nat) : Option (List Nat × Buffer) :=
  if n ≤ b.data.length then some (b.data.take n, ⟨b.data.drop n⟩) else none

/-- Modelled from the spec: peek_max copies at most limit bytes from the
front without consuming and reports how many were copied. -/
def Buffer.peek_max (b : Buffer) (limit : Nat) : Nat × List Nat :=
  (min limit b.data.length, b.data.take limit)

/-- Packet type from client.rs: a 16-bit header opcode and a body buffer. -/
structure FiestaPacket where
  header : Nat
  data : Buffer
deriving DecidableEq

/-- Embedding of FiestaNetworkClient.get_next_size (client.rs lines 83-97):
peek the byte at offset 0; a positive byte is the size, a zero byte defers
to the little-endian 16-bit size peeked at offset 1.  none stands for the
Err case (insufficient buffered data). -/
def FiestaNetworkClient.get_next_size (b : Buffer) : Option Nat :=
  match b.peek_u8 0 with
  | none => none
  | some small_size =>
    if small_size > 0 then some small_size
    else b.peek_u16 1

/-- Embedding of FiestaNetworkClient.can_read_next_packet (client.rs lines
48-57): a frame is reported extractable when the buffer holds at least
size + 2 + (2 if size > 255 else 1) bytes. -/
def FiestaNetworkClient.can_read_next_packet (b : Buffer) : Bool :=
  match FiestaNetworkClient.get_next_size b with
  | some s => decide (b.bytes_remaining ≥ s + 2 + (if s > 255 then 2 else 1))
  | none => false

/-- Embedding of FiestaNetworkClient.read_next_packet (client.rs lines
59-81), restricted to its effect on the read buffer and the packets it
pushes.  none stands for a panic of one of the unwrap calls; the early
return when no packet is extractable leaves the buffer unchanged and
pushes nothing. -/
def FiestaNetworkClient.read_next_packet (b : Buffer) :
    Option (Buffer × List FiestaPacket) :=
  if FiestaNetworkClient.can_read_next_packet b then
    match FiestaNetworkClient.get_next_size b with
    | none => none
    | some size =>
      let b1 := b.advance_ignore (if size > 255 then 3 else 1)
      match b1.read_u16 with
      | none => none
      | some (hdr, b2) =>
        match b2.read_bytes size with
        | none => none
        | some (body, b3) => some (b3, [⟨hdr, ⟨body⟩⟩])
  else some (b, [])

/-- Fuel-indexed embedding of the extraction loop in
FiestaNetworkClient.readable (client.rs lines 134-136): repeat
read_next_packet while can_read_next_packet holds.  Each successful
iteration consumes at least 3 bytes, so fuel equal to the buffer length is
always sufficient. -/
def extractLoopAux : Nat → Buffer → Option (Buffer × List FiestaPacket)
  | 0, b =>
    if FiestaNetworkClient.can_read_next_packet b then none else some (b, [])
  | fuel + 1, b =>
    if FiestaNetworkClient.can_read_next_packet b then
      match FiestaNetworkClient.read_next_packet b with
      | none => none
      | some (b2, ps) =>
        match extractLoopAux fuel b2 with
        | none => none
        | some (b3, qs) => some (b3, ps ++ qs)
    else some (b, [])

/-- The extraction loop of client.rs lines 134-136 run on a buffer:
extract frames until no further frame is reported extractable.  none
stands for a panic inside read_next_packet. -/
def extractLoop (b : Buffer) : Option (Buffer × List FiestaPacket) :=
  extractLoopAux b.bytes_remaining b

/-- Delivering a sequence of read chunks: each chunk is appended to the
read buffer and the extraction loop is run, accumulating extracted packets
in order, exactly as successive readable events with those payloads do. -/
def deliverChunks : List (List Nat) → Buffer → List FiestaPacket →
    Option (Buffer × List FiestaPacket)
  | [], b, acc => some (b, acc)
  | c :: rest, b, acc =>
    match extractLoop (b.append c) with
    | none => none
    | some (b2, ps) => deliverChunks rest b2 (acc ++ ps)

/-- Small-regime frame encoding from the wire-format contract: a length
byte L, the header as two little-endian bytes, then the L body bytes. -/
def encode_frame (header : Nat) (body : List Nat) : List Nat :=
  body.length :: header % 256 :: header / 256 :: body

/-- Readiness event sets, restricted to the two flags this component
inspects; EventSet.all of the source turns both on. -/
structure EventSet where
  readable : Bool
  writable : Bool
deriving DecidableEq

/-- The full event set, as EventSet.all() used by FiestaNetworkClient.new
and the accept path. -/
def EventSet.all : EventSet := ⟨true, true⟩

/-- Union of event sets, as the bitwise or on the source flags. -/
def EventSet.union (a b : EventSet) : EventSet :=
  ⟨a.readable || b.readable, a.writable || b.writable⟩

/-- The writable-only event set, as EventSet.writable() of the source. -/
def EventSet.writableOnly : EventSet := ⟨false, true⟩

/-- Per-connection state of FiestaNetworkClient (client.rs lines 20-28):
read and write buffers, the inbound packet queue, the liveness flag, the
interest set and the identifier.  socket_shutdown records whether
shutdown(Shutdown::Both) has been called on the socket. -/
structure FiestaNetworkClient where
  read_buffer : Buffer
  write_buffer : Buffer
  packet_queue : List FiestaPacket
  is_alive : Bool
  interest : EventSet
  id : Nat
  socket_shutdown : Bool
deriving DecidableEq

/-- Embedding of FiestaNetworkClient.new (client.rs lines 36-46): empty
buffers and queue, alive, interested in all events, socket open. -/
def FiestaNetworkClient.new (id : Nat) : FiestaNetworkClient :=
  { read_buffer := ⟨[]⟩
    write_buffer := ⟨[]⟩
    packet_queue := []
    is_alive := true
    interest := EventSet.all
    id := id
    socket_shutdown := false }

/-- Outcome of the non-blocking socket read in readable, as an oracle for
the external socket: data bytes (the Ok case with a positive count),
a zero-byte read, or an I/O error. -/
inductive ReadResult
  | data (bytes : List Nat)
  | closed
  | ioError
deriving DecidableEq

/-- Outcome of the non-blocking socket write in writeable: Ok with a byte
count, or an I/O error. -/
inductive WriteResult
  | ok (n : Nat)
  | err
deriving DecidableEq

/-- Oracle for one writable event: either peeking the write buffer itself
fails (the Err branch of peek_max; the buffer module is absent from src/,
so whether this can occur is unknown, but the branch exists in the code),
or the peek succeeds and, when bytes are available, the socket write has
the given outcome. -/
inductive WriteEvent
  | peekFailed
  | socket (w : WriteResult)
deriving DecidableEq

/-- Embedding of FiestaNetworkClient.readable (client.rs lines 99-137):
interpret the read outcome (append data, or shut down / clear liveness /
signal disconnect on a zero read or error), then run the extraction loop,
pushing extracted packets onto the inbound queue.  The returned Bool is
the disconnect flag; none stands for a panic in the extraction loop. -/
def FiestaNetworkClient.readable (c : FiestaNetworkClient) (r : ReadResult) :
    Option (FiestaNetworkClient × Bool) :=
  let step : FiestaNetworkClient × Bool :=
    match r with
    | .data bytes => ({ c with read_buffer := c.read_buffer.append bytes }, false)
    | .closed => ({ c with socket_shutdown := true, is_alive := false }, true)
    | .ioError => ({ c with socket_shutdown := true, is_alive := false }, true)
  let c1 := step.1
  match extractLoop c1.read_buffer with
  | none => none
  | some (b2, ps) =>
    some ({ c1 with
            read_buffer := b2
            packet_queue := c1.packet_queue ++ ps }, step.2)

/-- Embedding of FiestaNetworkClient.writeable (client.rs lines 139-180):
peek up to 1024 bytes of the write buffer; on a peek error shut the socket
down and signal disconnect (the liveness flag is not touched in this
branch); with zero bytes available do nothing; otherwise a positive write
advances the buffer, while a zero-byte write or write error shuts down,
clears liveness and signals disconnect. -/
def FiestaNetworkClient.writeable (c : FiestaNetworkClient) (ev : WriteEvent) :
    FiestaNetworkClient × Bool :=
  match ev with
  | .peekFailed => ({ c with socket_shutdown := true }, true)
  | .socket w =>
    let size := (c.write_buffer.peek_max 1024).1
    if size > 0 then
      match w with
      | .ok s =>
        if s > 0 then
          ({ c with write_buffer := c.write_buffer.advance_ignore s }, false)
        else
          ({ c with socket_shutdown := true, is_alive := false }, true)
      | .err => ({ c with socket_shutdown := true, is_alive := false }, true)
    else (c, false)

/-- Embedding of FiestaNetworkClient.append_send (client.rs lines
206-213): append the bytes to the write buffer, then add writable to the
interest set when it is absent. -/
def FiestaNetworkClient.append_send (c : FiestaNetworkClient) (bytes : List Nat) :
    FiestaNetworkClient :=
  let c1 := { c with write_buffer := c.write_buffer.append bytes }
  if c1.interest.writable then c1
  else { c1 with interest := EventSet.union c1.interest EventSet.writableOnly }

/-- Processing job from packetproc.rs lines 19-22: one decoded packet
paired with the identifier of its originating connection (standing for the
shared connection handle). -/
structure PacketProcessingInfo where
  packet : FiestaPacket
  client : Nat
deriving DecidableEq

/-- Registry and dispatch state of FiestaHandler (client.rs lines 13-18):
the connection registry as an association list from identifier to
connection state, the identifier counter, and the trace of processing jobs
submitted to the processor, in submission order. -/
structure FiestaHandler where
  clients : List (Nat × FiestaNetworkClient)
  token_count : Nat
  processed : List PacketProcessingInfo
deriving DecidableEq

/-- Registry lookup, as self.clients.get(&token). -/
def lookupClient : List (Nat × FiestaNetworkClient) → Nat →
    Option FiestaNetworkClient
  | [], _ => none
  | p :: rest, t => if p.1 = t then some p.2 else lookupClient rest t

/-- Replace the state stored for an identifier, modelling mutation of the
shared connection object held by the registry. -/
def updateClient : List (Nat × FiestaNetworkClient) → Nat →
    FiestaNetworkClient → List (Nat × FiestaNetworkClient)
  | [], _, _ => []
  | p :: rest, t, c =>
    (if p.1 = t then (t, c) else p) :: updateClient rest t c

/-- Remove an identifier from the registry, as self.clients.remove(&token). -/
def removeClient : List (Nat × FiestaNetworkClient) → Nat →
    List (Nat × FiestaNetworkClient)
  | [], _ => []
  | p :: rest, t =>
    if p.1 = t then removeClient rest t else p :: removeClient rest t

/-- Embedding of FiestaHandler.client_ready (client.rs lines 263-304).
When the event is readable, look the connection up (unwrap panics when it
is absent, modelled by none), run the readable step, and drain its packet
queue into the list of jobs to process; when the event is writable, look
it up again and run the writeable step; then submit every collected job to
the processor in order; finally either remove the connection from the
registry (when disconnect was signalled) or look it up once more and
re-register it, again panicking when it is absent. -/
def FiestaHandler.client_ready (h : FiestaHandler) (token : Nat)
    (events : EventSet) (r : ReadResult) (w : WriteEvent) :
    Option FiestaHandler :=
  let step1 : Option (List (Nat × FiestaNetworkClient) × Bool ×
      List PacketProcessingInfo) :=
    match events.readable with
    | true =>
      match lookupClient h.clients token with
      | none => none
      | some c =>
        match FiestaNetworkClient.readable c r with
        | none => none
        | some (c1, disc) =>
          some (updateClient h.clients token { c1 with packet_queue := [] },
            disc, c1.packet_queue.map (fun p => ⟨p, token⟩))
    | false => some (h.clients, false, [])
  match step1 with
  | none => none
  | some (cs1, disc1, jobs) =>
    let step2 : Option (List (Nat × FiestaNetworkClient) × Bool) :=
      match events.writable with
      | true =>
        match lookupClient cs1 token with
        | none => none
        | some c =>
          let wres := FiestaNetworkClient.writeable c w
          some (updateClient cs1 token wres.1, disc1 || wres.2)
      | false => some (cs1, disc1)
    match step2 with
    | none => none
    | some (cs2, disc) =>
      let h2 := { h with clients := cs2, processed := h.processed ++ jobs }
      match disc with
      | true => some { h2 with clients := removeClient cs2 token }
      | false =>
        match lookupClient cs2 token with
        | none => none
        | some _ => some h2

/-- World state for the dispatch pool (packetproc.rs): channels indexed by
identifier, each holding its queued jobs in FIFO order, and the list of
spawned worker threads, each recorded by the channel it receives from. -/
structure PoolWorld where
  channels : List (List PacketProcessingInfo)
  threads : List Nat
deriving DecidableEq

/-- Handle state of PacketProcessingThreadPool (packetproc.rs lines
12-17): the sender and receiver endpoints of the shared job channel,
recorded by channel identifier, and a tag standing for the boxed inner
processor handle. -/
structure PacketProcessingThreadPool where
  packet_receiver : Nat
  packet_sender : Nat
  processor : Nat
deriving DecidableEq

/-- Embedding of PacketProcessingThreadPool.start_new_thread (packetproc.rs
lines 45-58): spawn one worker thread that drains the packet_receiver
channel of this pool handle. -/
def PacketProcessingThreadPool.start_new_thread
    (p : PacketProcessingThreadPool) (w : PoolWorld) : PoolWorld :=
  { w with threads := w.threads ++ [p.packet_receiver] }

/-- Embedding of PacketProcessingThreadPool.new (packetproc.rs lines
28-43): allocate one fresh channel for both endpoints and spawn the
requested number of worker threads on it. -/
def PacketProcessingThreadPool.new (nthreads : Nat) (processor : Nat)
    (w : PoolWorld) : PoolWorld × PacketProcessingThreadPool :=
  let cid := w.channels.length
  let p : PacketProcessingThreadPool :=
    { packet_receiver := cid, packet_sender := cid, processor := processor }
  let w1 := { w with channels := w.channels ++ [[]] }
  ((List.range nthreads).foldl (fun wa _ => p.start_new_thread wa) w1, p)

/-- Embedding of the Clone instance for PacketProcessingThreadPool
(packetproc.rs lines 61-70): copy every handle field; no channel is
allocated and no thread is spawned. -/
def PacketProcessingThreadPool.clone (p : PacketProcessingThreadPool)
    (w : PoolWorld) : PoolWorld × PacketProcessingThreadPool :=
  (w, { packet_receiver := p.packet_receiver
        packet_sender := p.packet_sender
        processor := p.processor })

/-- Embedding of process_packet of the PacketProcessor impl for the pool
(packetproc.rs lines 72-75): push the job onto the channel named by
packet_sender and return at once. -/
def PacketProcessingThreadPool.process_packet
    (p : PacketProcessingThreadPool) (info : PacketProcessingInfo)
    (w : PoolWorld) : PoolWorld :=
  let queue := (w.channels.get? p.packet_sender).getD []
  { w with channels := w.channels.set p.packet_sender (queue ++ [info]) }

/-- Operations a connection undergoes after construction: a readable event
with a given socket outcome, a writable event with a given socket outcome,
or append_send from processing logic. -/
inductive ClientOp
  | readEv (r : ReadResult)
  | writeEv (w : WriteEvent)
  | send (bytes : List Nat)
deriving DecidableEq

/-- Run a sequence of connection operations from a starting state; none
stands for a panic inside a readable event. -/
def runClientOps : FiestaNetworkClient → List ClientOp →
    Option FiestaNetworkClient
  | c, [] => some c
  | c, op :: rest =>
    match op with
    | .readEv r =>
      match FiestaNetworkClient.readable c r with
      | none => none
      | some (c2, _) => runClientOps c2 rest
    | .writeEv w => runClientOps (FiestaNetworkClient.writeable c w).1 rest
    | .send bytes => runClientOps (FiestaNetworkClient.append_send c bytes) rest

/-- The 261-byte extended-regime frame used to exercise the size check:
length marker 0, little-endian extended length 256, header bytes 7 and 8,
then 256 body bytes of value 5. -/
def bigFrame : List Nat := 0 :: 0 :: 1 :: 7 :: 8 :: List.replicate 256 5

/-- A connection state used to exhibit the write-buffer peek-error branch:
alive, with a pending outbound byte and a short (non-extractable) inbound
remainder. -/
def clientEx : FiestaNetworkClient :=
  { FiestaNetworkClient.new 1 with
    read_buffer := ⟨[5]⟩
    write_buffer := ⟨[9]⟩ }

/-- A one-connection registry around clientEx. -/
def handlerEx : FiestaHandler :=
  { clients := [(1, clientEx)], token_count := 1, processed := [] }

/-- A fresh connection used to exercise one full read-extract-dispatch
pass. -/
def c8Client : FiestaNetworkClient := FiestaNetworkClient.new 2

/-- The state of c8Client after one readable event delivering the frame
[2, 7, 0, 1, 2]: the packet with header 7 and body [1, 2] is queued. -/
def c8ClientAfter : FiestaNetworkClient :=
  { FiestaNetworkClient.new 2 with packet_queue := [⟨7, ⟨[1, 2]⟩⟩] }

/-- A one-connection registry around c8Client. -/
def c8Handler : FiestaHandler :=
  { clients := [(2, c8Client)], token_count := 2, processed := [] }

/-- The registry c8Handler after the readiness pass that extracted and
submitted the packet with header 7 and body [1, 2]. -/
def c8HandlerAfter : FiestaHandler :=
  { clients := [(2, FiestaNetworkClient.new 2)], token_count := 2,
    processed := [⟨⟨7, ⟨[1, 2]⟩⟩, 2⟩] }

/-- An empty registry, used to exercise the lookup panic. -/
def emptyHandler : FiestaHandler :=
  { clients := [], token_count := 0, processed := [] }

/- Helper lemmas about the extraction loop. -/

theorem extractLoopAux_of_not_can_read (fuel : Nat) (b : Buffer)
    (h : FiestaNetworkClient.can_read_next_packet b = false) :
    extractLoopAux fuel b = some (b, []) := by
  cases fuel <;> simp [extractLoopAux, h]

theorem extractLoop_of_not_can_read (b : Buffer)
    (h : FiestaNetworkClient.can_read_next_packet b = false) :
    extractLoop b = some (b, []) := by
  simp [extractLoop, extractLoopAux_of_not_can_read _ _ h]

theorem can_read_nil : FiestaNetworkClient.can_read_next_packet ⟨[]⟩ = false := by
  decide

theorem get_next_size_frame (header : Nat) (body : List Nat)
    (h1 : 1 ≤ body.length) :
    FiestaNetworkClient.get_next_size ⟨encode_frame header body⟩ =
      some body.length := by
  have hp : Buffer.peek_u8 ⟨encode_frame header body⟩ 0 = some body.length := rfl
  rw [FiestaNetworkClient.get_next_size, hp]
  simp only []
  rw [if_pos (show body.length > 0 by omega)]

theorem can_read_frame (header : Nat) (body : List Nat)
    (h1 : 1 ≤ body.length) (h2 : body.length ≤ 255) :
    FiestaNetworkClient.can_read_next_packet ⟨encode_frame header body⟩ = true := by
  rw [FiestaNetworkClient.can_read_next_packet, get_next_size_frame header body h1]
  have hnot : ¬ body.length > 255 := by omega
  simp [Buffer.bytes_remaining, encode_frame, hnot]

theorem read_next_packet_frame (header : Nat) (body : List Nat)
    (h1 : 1 ≤ body.length) (h2 : body.length ≤ 255) :
    FiestaNetworkClient.read_next_packet ⟨encode_frame header body⟩ =
      some (⟨[]⟩, [⟨header, ⟨body⟩⟩]) := by
  rw [FiestaNetworkClient.read_next_packet, if_pos (can_read_frame header body h1 h2),
    get_next_size_frame header body h1]
  have hnot : ¬ body.length > 255 := by omega
  simp only [hnot, if_false, Buffer.advance_ignore, Buffer.advance_read,
    encode_frame]
  have hle : 1 ≤ (body.length :: header % 256 :: header / 256 :: body).length := by
    simp
  rw [if_pos hle]
  simp only [List.drop_succ_cons, List.drop_zero, Buffer.read_u16]
  have hmod : header % 256 + 256 * (header / 256) = header := Nat.mod_add_div header 256
  simp only [hmod, Buffer.read_bytes, le_refl, if_pos, List.take_length,
    List.drop_length]

theorem get_next_size_cons_pos (a : Nat) (t : List Nat) (ha : 0 < a) :
    FiestaNetworkClient.get_next_size ⟨a :: t⟩ = some a := by
  have hp : Buffer.peek_u8 ⟨a :: t⟩ 0 = some a := rfl
  rw [FiestaNetworkClient.get_next_size, hp]
  simp only []
  rw [if_pos ha]

theorem can_read_take_frame (header : Nat) (body : List Nat)
    (h1 : 1 ≤ body.length) (h2 : body.length ≤ 255) (k : Nat)
    (hk : k < body.length + 3) :
    FiestaNetworkClient.can_read_next_packet
      ⟨(encode_frame header body).take k⟩ = false := by
  cases k with
  | zero => simpa using can_read_nil
  | succ j =>
    have ht : (encode_frame header body).take (j + 1) =
        body.length :: (header % 256 :: header / 256 :: body).take j := rfl
    rw [ht, FiestaNetworkClient.can_read_next_packet,
      get_next_size_cons_pos body.length _ (by omega)]
    have hnot : ¬ body.length > 255 := by omega
    simp only [hnot, if_false, Buffer.bytes_remaining, List.length_cons,
      List.length_take, decide_eq_false_iff_not, ge_iff_le, not_le]
    have hr : (header % 256 :: header / 256 :: body).length = body.length + 2 := by
      simp
    omega

theorem extractLoop_frame (header : Nat) (body : List Nat)
    (h1 : 1 ≤ body.length) (h2 : body.length ≤ 255) :
    extractLoop ⟨encode_frame header body⟩ = some (⟨[]⟩, [⟨header, ⟨body⟩⟩]) := by
  have hlen : (Buffer.mk (encode_frame header body)).bytes_remaining =
      body.length + 3 := by
    simp [Buffer.bytes_remaining, encode_frame]
  rw [extractLoop, hlen]
  show extractLoopAux (body.length + 2 + 1) _ = _
  rw [extractLoopAux, if_pos (can_read_frame header body h1 h2),
    read_next_packet_frame header body h1 h2]
  simp [extractLoopAux_of_not_can_read _ _ can_read_nil]

theorem deliverChunks_all_empty (rest : List (List Nat))
    (acc : List FiestaPacket) (h : rest.flatten = []) :
    deliverChunks rest ⟨[]⟩ acc = some (⟨[]⟩, acc) := by
  induction rest generalizing acc with
  | nil => rfl
  | cons c rs ih =>
    rw [List.flatten_cons] at h
    have hc : c = [] ∧ rs.flatten = [] := List.append_eq_nil.mp h
    rw [deliverChunks]
    have happ : Buffer.append ⟨[]⟩ c = ⟨[]⟩ := by rw [hc.1]; rfl
    rw [happ, extractLoop_of_not_can_read _ can_read_nil]
    simpa using ih acc hc.2

theorem deliverChunks_frame_aux (header : Nat) (body : List Nat)
    (h1 : 1 ≤ body.length) (h2 : body.length ≤ 255) :
    ∀ (chunks : List (List Nat)) (b : List Nat) (acc : List FiestaPacket),
      b ++ chunks.flatten = encode_frame header body →
      b.length < body.length + 3 →
      deliverChunks chunks ⟨b⟩ acc = some (⟨[]⟩, acc ++ [⟨header, ⟨body⟩⟩]) := by
  intro chunks
  have hflen : (encode_frame header body).length = body.length + 3 := by
    simp [encode_frame]
  induction chunks with
  | nil =>
    intro b acc hjoin hlen
    exfalso
    rw [List.flatten_nil, List.append_nil] at hjoin
    have := congrArg List.length hjoin
    omega
  | cons c rest ih =>
    intro b acc hjoin hlen
    rw [List.flatten_cons, ← List.append_assoc] at hjoin
    rw [deliverChunks]
    have happ : Buffer.append ⟨b⟩ c = ⟨b ++ c⟩ := rfl
    rw [happ]
    rcases Nat.lt_or_ge (b ++ c).length (body.length + 3) with hlt | hge
    · have htake : (encode_frame header body).take (b ++ c).length = b ++ c := by
        rw [← hjoin]
        exact List.take_left _ _
      have hcr : FiestaNetworkClient.can_read_next_packet ⟨b ++ c⟩ = false := by
        rw [← htake]
        exact can_read_take_frame header body h1 h2 _ hlt
      rw [extractLoop_of_not_can_read _ hcr]
      simpa using ih (b ++ c) acc hjoin hlt
    · have hlenle : (b ++ c).length + rest.flatten.length = body.length + 3 := by
        have := congrArg List.length hjoin
        simp [hflen] at this ⊢
        omega
      have hrest : rest.flatten = [] := by
        have : rest.flatten.length = 0 := by omega
        exact List.eq_nil_of_length_eq_zero this
      have hbc : b ++ c = encode_frame header body := by
        rw [← hjoin, hrest, List.append_nil]
      rw [hbc, extractLoop_frame header body h1 h2]
      exact deliverChunks_all_empty rest _ hrest

/-- C1: the claim states that for a buffer whose byte at offset 0 is 0 the
frame occupies 3 + 2 + L bytes (L the little-endian 16-bit value at offset
1) and is reported extractable iff at least that many bytes are buffered,
for every L including L at most 255.  The code disagrees: it discriminates
the regime by size > 255 instead of by the zero marker and counts the
extended length field as 2 bytes instead of 3, so on the 4-byte buffer
[0, 1, 0, 9] (L = 1, full frame = 6 bytes) it already reports the frame
extractable.  This theorem evaluates the code at that failing input. -/
theorem C1_extended_size_check_eval :
    FiestaNetworkClient.get_next_size ⟨[0, 1, 0, 9]⟩ = some 1 ∧
    FiestaNetworkClient.can_read_next_packet ⟨[0, 1, 0, 9]⟩ = true ∧
    Buffer.bytes_remaining ⟨[0, 1, 0, 9]⟩ < 3 + 2 + 1 := by
  exact ⟨by decide, by decide, by decide⟩

/-- C2: the claim states that read_next_packet leaves the read buffer
unchanged unless the buffer holds the full frame, the length only being
peeked during the check.  On the buffer [0, 1, 0, 9] (zero marker, extended
length 1, so the full frame needs 6 bytes) the code nevertheless consumes
all 4 bytes and emits a mis-parsed packet with header 1 and body [9]:
partial consumption on an incomplete frame.  This theorem evaluates the
code at that failing input. -/
theorem C2_consumes_incomplete_frame_eval :
    FiestaNetworkClient.read_next_packet ⟨[0, 1, 0, 9]⟩ =
      some (⟨[]⟩, [⟨1, ⟨[9]⟩⟩]) := by
  decide

set_option maxRecDepth 4000 in
/-- C3: the claim states that any chunking of a valid stream yields the
same packets as one-shot delivery.  For the single valid extended-regime
frame bigFrame (length marker 0, extended length 256, header bytes 7 and
8, 256 body bytes), one-shot delivery extracts the one correct packet, but
delivering the first 260 bytes and then the last byte panics: after 260
bytes the miscounted size check admits extraction and read_bytes fails
inside an unwrap.  This theorem evaluates the code on both deliveries. -/
theorem C3_split_delivery_diverges_eval :
    deliverChunks [bigFrame] ⟨[]⟩ [] =
      some (⟨[]⟩, [⟨2055, ⟨List.replicate 256 5⟩⟩]) ∧
    deliverChunks [bigFrame.take 260, bigFrame.drop 260] ⟨[]⟩ [] = none := by
  exact ⟨by decide, by decide⟩

/-- C4: for every body length between 1 and 255, every 16-bit header and
every body of that length, encoding the frame as [L][header low, header
high][body] and feeding it through the read and extract path in arbitrary
chunks yields exactly one packet with the original header and body, with
the whole 1 + 2 + L encoded bytes consumed (the final read buffer is
empty). -/
theorem C4_small_frame_roundtrip (header : Nat) (body : List Nat)
    (chunks : List (List Nat)) (h1 : 1 ≤ body.length) (h2 : body.length ≤ 255)
    (_hh : header < 65536) (hjoin : chunks.flatten = encode_frame header body) :
    deliverChunks chunks ⟨[]⟩ [] = some (⟨[]⟩, [⟨header, ⟨body⟩⟩]) := by
  have h0 : ([] : List Nat) ++ chunks.flatten = encode_frame header body := by
    simpa using hjoin
  have := deliverChunks_frame_aux header body h1 h2 chunks [] [] h0
    (by simp)
  simpa using this

/-- C4 witness: the frame with header 7 and body [1, 2], delivered in the
three chunks [2, 7], [0, 1], [2], satisfies the hypotheses and yields
exactly the original packet. -/
theorem C4_small_frame_roundtrip_witness :
    1 ≤ ([1, 2] : List Nat).length ∧ ([1, 2] : List Nat).length ≤ 255 ∧
    7 < 65536 ∧
    ([[2, 7], [0, 1], [2]] : List (List Nat)).flatten = encode_frame 7 [1, 2] ∧
    deliverChunks [[2, 7], [0, 1], [2]] ⟨[]⟩ [] =
      some (⟨[]⟩, [⟨7, ⟨[1, 2]⟩⟩]) := by
  refine ⟨by decide, by decide, by decide, by decide, ?_⟩
  exact C4_small_frame_roundtrip 7 [1, 2] [[2, 7], [0, 1], [2]]
    (by decide) (by decide) (by decide) (by decide)

/-- C5: the claim states that a buffer holding M complete frames followed
by a strict prefix of another frame yields exactly M packets and leaves the
partial bytes unconsumed.  The buffer [0, 2, 0, 7, 8] holds M = 0 complete
frames followed by a strict prefix of the 7-byte extended frame
[0, 2, 0, 7, 8, b1, b2], yet the extraction loop emits one mis-parsed
packet (header 2, body [7, 8]) and consumes all buffered bytes.  This
theorem evaluates the code at that failing input. -/
theorem C5_partial_frame_extracted_eval :
    extractLoop ⟨[0, 2, 0, 7, 8]⟩ = some (⟨[]⟩, [⟨2, ⟨[7, 8]⟩⟩]) := by
  decide

/- Registry lemmas. -/

theorem lookupClient_removeClient (cs : List (Nat × FiestaNetworkClient))
    (t : Nat) : lookupClient (removeClient cs t) t = none := by
  induction cs with
  | nil => rfl
  | cons p rest ih =>
    by_cases hp : p.1 = t
    · simpa [removeClient, hp] using ih
    · simpa [removeClient, lookupClient, hp] using ih

theorem lookupClient_updateClient_self (cs : List (Nat × FiestaNetworkClient))
    (t : Nat) (c x : FiestaNetworkClient) (h : lookupClient cs t = some c) :
    lookupClient (updateClient cs t x) t = some x := by
  induction cs with
  | nil => simp [lookupClient] at h
  | cons p rest ih =>
    by_cases hp : p.1 = t
    · simp [updateClient, lookupClient, hp]
    · simp only [lookupClient, if_neg hp] at h
      simp only [updateClient, if_neg hp, lookupClient, if_neg hp]
      exact ih h

/-- C10: handling a readiness event for an identifier with no registry
entry panics on the unwrap of the registry lookup (modelled by none),
whatever the event set and the socket outcomes: there is no branch that
ignores the event. -/
theorem C10_missing_token_panics (h : FiestaHandler) (token : Nat)
    (events : EventSet) (r : ReadResult) (w : WriteEvent)
    (habs : lookupClient h.clients token = none) :
    h.client_ready token events r w = none := by
  rcases events with ⟨er, ew⟩
  cases er <;> cases ew <;> simp [FiestaHandler.client_ready, habs]

/-- C10 witness: an event for identifier 5 on an empty registry panics,
whatever the event set. -/
theorem C10_missing_token_panics_witness :
    lookupClient emptyHandler.clients 5 = none ∧
    emptyHandler.client_ready 5 ⟨true, true⟩ .closed .peekFailed = none := by
  refine ⟨by decide, ?_⟩
  exact C10_missing_token_panics emptyHandler 5 ⟨true, true⟩ .closed .peekFailed
    (by decide)

/- Dispatch-pool lemmas. -/

theorem foldl_start_threads (p : PacketProcessingThreadPool) (n : Nat)
    (w : PoolWorld) :
    ((List.range n).foldl (fun wa _ => p.start_new_thread wa) w).threads =
      w.threads ++ List.replicate n p.packet_receiver := by
  induction n generalizing w with
  | zero => simp
  | succ m ih =>
    rw [List.range_succ, List.foldl_append]
    simp only [List.foldl_cons, List.foldl_nil]
    have h1 : (p.start_new_thread
        ((List.range m).foldl (fun wa _ => p.start_new_thread wa) w)).threads =
        ((List.range m).foldl (fun wa _ => p.start_new_thread wa) w).threads ++
          [p.packet_receiver] := rfl
    rw [h1, ih, List.replicate_succ']
    simp [List.append_assoc]

/-- C9: cloning the dispatch pool copies the channel endpoints, spawning
no thread and touching no channel, so a job submitted through the clone
is pushed onto the same shared queue as through the original; workers
spawned at construction all receive from that same channel. -/
theorem C9_pool_clone_shares_queue (p : PacketProcessingThreadPool)
    (w : PoolWorld) (info : PacketProcessingInfo) :
    (p.clone w).1 = w ∧
    ((p.clone w).1).threads = w.threads ∧
    ((p.clone w).2).packet_sender = p.packet_sender ∧
    ((p.clone w).2).packet_receiver = p.packet_receiver ∧
    (∀ w2, ((p.clone w).2).process_packet info w2 = p.process_packet info w2) ∧
    (∀ n proc w0,
      ((PacketProcessingThreadPool.new n proc w0).2).packet_receiver =
        ((PacketProcessingThreadPool.new n proc w0).2).packet_sender ∧
      ((PacketProcessingThreadPool.new n proc w0).1).threads =
        w0.threads ++
          List.replicate n
            ((PacketProcessingThreadPool.new n proc w0).2).packet_receiver) := by
  refine ⟨rfl, rfl, rfl, rfl, fun w2 => rfl, fun n proc w0 => ⟨rfl, ?_⟩⟩
  simpa [PacketProcessingThreadPool.new] using
    foldl_start_threads
      ⟨w0.channels.length, w0.channels.length, proc⟩ n
      { w0 with channels := w0.channels ++ [[]] }

/- Fatal I/O outcome lemmas. -/

theorem readable_fatal_closed (c : FiestaNetworkClient)
    (hq : c.packet_queue = [])
    (hnr : FiestaNetworkClient.can_read_next_packet c.read_buffer = false) :
    FiestaNetworkClient.readable c .closed =
      some ({ c with socket_shutdown := true, is_alive := false }, true) := by
  simp [FiestaNetworkClient.readable, extractLoop_of_not_can_read _ hnr, hq]

theorem readable_fatal_ioError (c : FiestaNetworkClient)
    (hq : c.packet_queue = [])
    (hnr : FiestaNetworkClient.can_read_next_packet c.read_buffer = false) :
    FiestaNetworkClient.readable c .ioError =
      some ({ c with socket_shutdown := true, is_alive := false }, true) := by
  simp [FiestaNetworkClient.readable, extractLoop_of_not_can_read _ hnr, hq]

theorem writeable_fatal_ok0 (c : FiestaNetworkClient)
    (hw : 0 < c.write_buffer.bytes_remaining) :
    FiestaNetworkClient.writeable c (.socket (.ok 0)) =
      ({ c with socket_shutdown := true, is_alive := false }, true) := by
  have hsz : 0 < min 1024 c.write_buffer.data.length := by
    simp [Buffer.bytes_remaining] at hw
    omega
  simp [FiestaNetworkClient.writeable, Buffer.peek_max, hsz]

theorem writeable_fatal_err (c : FiestaNetworkClient)
    (hw : 0 < c.write_buffer.bytes_remaining) :
    FiestaNetworkClient.writeable c (.socket .err) =
      ({ c with socket_shutdown := true, is_alive := false }, true) := by
  have hsz : 0 < min 1024 c.write_buffer.data.length := by
    simp [Buffer.bytes_remaining] at hw
    omega
  simp [FiestaNetworkClient.writeable, Buffer.peek_max, hsz]

theorem client_ready_read_disc (h : FiestaHandler) (token : Nat)
    (c c1 : FiestaNetworkClient) (r : ReadResult) (w : WriteEvent)
    (hc : lookupClient h.clients token = some c)
    (hr : FiestaNetworkClient.readable c r = some (c1, true))
    (hq1 : c1.packet_queue = []) :
    h.client_ready token ⟨true, false⟩ r w =
      some { h with
             clients := removeClient
               (updateClient h.clients token { c1 with packet_queue := [] })
               token
             processed := h.processed } := by
  simp [FiestaHandler.client_ready, hc, hr, hq1]

theorem client_ready_write_disc (h : FiestaHandler) (token : Nat)
    (c c2 : FiestaNetworkClient) (r : ReadResult) (w : WriteEvent)
    (hc : lookupClient h.clients token = some c)
    (hw : FiestaNetworkClient.writeable c w = (c2, true)) :
    h.client_ready token ⟨false, true⟩ r w =
      some { h with
             clients := removeClient (updateClient h.clients token c2) token
             processed := h.processed } := by
  simp [FiestaHandler.client_ready, hc, hw]

/-- C6 counterexample: the claim asserts that every fatal I/O condition,
including an error while peeking the write buffer, sets the liveness flag
to false.  On the live connection clientEx, the peek-error branch of
writeable shuts the socket down and signals disconnect but leaves
is_alive at true, so the claim is false at this input. -/
theorem C6_counterexample_peek_error_liveness :
    (FiestaNetworkClient.writeable clientEx .peekFailed).2 = true ∧
    (FiestaNetworkClient.writeable clientEx .peekFailed).1.socket_shutdown
      = true ∧
    clientEx.is_alive = true ∧
    (FiestaNetworkClient.writeable clientEx .peekFailed).1.is_alive = true := by
  exact ⟨by decide, by decide, by decide, by decide⟩

/-- C6 amended: for every fatal I/O condition (read error, zero-byte read,
write error, zero-byte write, write-buffer peek error) on a registered
connection, the handling step shuts the socket down and signals
disconnect, and the reactor removes the registry entry during the same
pass; the four read/write conditions also clear the liveness flag, while
the peek-error branch leaves the liveness flag unchanged; provided the
connection enters the pass with a drained queue and no extractable frame
buffered (the invariant every previous pass establishes), no packet is
submitted to the processor from that event. -/
theorem C6_fatal_io_disconnect (h : FiestaHandler) (token : Nat)
    (c : FiestaNetworkClient)
    (hc : lookupClient h.clients token = some c)
    (hq : c.packet_queue = [])
    (hnr : FiestaNetworkClient.can_read_next_packet c.read_buffer = false)
    (hw : 0 < c.write_buffer.bytes_remaining) :
    (FiestaNetworkClient.readable c .closed =
      some ({ c with socket_shutdown := true, is_alive := false }, true)) ∧
    (FiestaNetworkClient.readable c .ioError =
      some ({ c with socket_shutdown := true, is_alive := false }, true)) ∧
    (FiestaNetworkClient.writeable c (.socket (.ok 0)) =
      ({ c with socket_shutdown := true, is_alive := false }, true)) ∧
    (FiestaNetworkClient.writeable c (.socket .err) =
      ({ c with socket_shutdown := true, is_alive := false }, true)) ∧
    (FiestaNetworkClient.writeable c .peekFailed =
      ({ c with socket_shutdown := true }, true)) ∧
    (∀ w, ∃ h2, h.client_ready token ⟨true, false⟩ .closed w = some h2 ∧
      lookupClient h2.clients token = none ∧ h2.processed = h.processed) ∧
    (∀ w, ∃ h2, h.client_ready token ⟨true, false⟩ .ioError w = some h2 ∧
      lookupClient h2.clients token = none ∧ h2.processed = h.processed) ∧
    (∀ r, ∃ h2, h.client_ready token ⟨false, true⟩ r (.socket (.ok 0)) =
      some h2 ∧
      lookupClient h2.clients token = none ∧ h2.processed = h.processed) ∧
    (∀ r, ∃ h2, h.client_ready token ⟨false, true⟩ r (.socket .err) =
      some h2 ∧
      lookupClient h2.clients token = none ∧ h2.processed = h.processed) ∧
    (∀ r, ∃ h2, h.client_ready token ⟨false, true⟩ r .peekFailed = some h2 ∧
      lookupClient h2.clients token = none ∧ h2.processed = h.processed) := by
  refine ⟨readable_fatal_closed c hq hnr, readable_fatal_ioError c hq hnr,
    writeable_fatal_ok0 c hw, writeable_fatal_err c hw, rfl, ?_, ?_, ?_, ?_, ?_⟩
  · intro w
    exact ⟨_, client_ready_read_disc h token c _ .closed w hc
      (readable_fatal_closed c hq hnr) hq, lookupClient_removeClient _ _, rfl⟩
  · intro w
    exact ⟨_, client_ready_read_disc h token c _ .ioError w hc
      (readable_fatal_ioError c hq hnr) hq, lookupClient_removeClient _ _, rfl⟩
  · intro r
    exact ⟨_, client_ready_write_disc h token c _ r (.socket (.ok 0)) hc
      (writeable_fatal_ok0 c hw), lookupClient_removeClient _ _, rfl⟩
  · intro r
    exact ⟨_, client_ready_write_disc h token c _ r (.socket .err) hc
      (writeable_fatal_err c hw), lookupClient_removeClient _ _, rfl⟩
  · intro r
    exact ⟨_, client_ready_write_disc h token c _ r .peekFailed hc rfl,
      lookupClient_removeClient _ _, rfl⟩

/-- C6 witness: on the registry handlerEx holding the live connection
clientEx (drained queue, no extractable frame, pending outbound byte), a
writable event whose socket write fails removes entry 1 in the same pass
with nothing submitted to the processor. -/
theorem C6_fatal_io_disconnect_witness :
    lookupClient handlerEx.clients 1 = some clientEx ∧
    clientEx.packet_queue = [] ∧
    FiestaNetworkClient.can_read_next_packet clientEx.read_buffer = false ∧
    0 < clientEx.write_buffer.bytes_remaining ∧
    ∃ h2, handlerEx.client_ready 1 ⟨false, true⟩ .closed (.socket .err) =
        some h2 ∧
      lookupClient h2.clients 1 = none ∧ h2.processed = handlerEx.processed := by
  refine ⟨by decide, by decide, by decide, by decide, ?_⟩
  exact ((C6_fatal_io_disconnect handlerEx 1 clientEx (by decide) (by decide)
    (by decide) (by decide)).2.2.2.2.2.2.2.2.1) .closed

/- Interest-set preservation lemmas. -/

theorem readable_preserves_interest (c : FiestaNetworkClient) (r : ReadResult)
    (x : FiestaNetworkClient × Bool)
    (h : FiestaNetworkClient.readable c r = some x) :
    x.1.interest = c.interest := by
  unfold FiestaNetworkClient.readable at h
  cases r <;> dsimp only at h <;> split at h
  all_goals
    first
      | exact Option.noConfusion h
      | (injection h with h2; rw [← h2])

theorem writeable_preserves (c : FiestaNetworkClient) (w : WriteEvent) :
    ((FiestaNetworkClient.writeable c w).1).interest = c.interest ∧
    ((FiestaNetworkClient.writeable c w).1).packet_queue = c.packet_queue := by
  cases w with
  | peekFailed => exact ⟨rfl, rfl⟩
  | socket wr =>
    dsimp only [FiestaNetworkClient.writeable]
    split
    · cases wr with
      | ok n =>
        dsimp only
        split <;> exact ⟨rfl, rfl⟩
      | err => exact ⟨rfl, rfl⟩
    · exact ⟨rfl, rfl⟩

theorem append_send_interest (c : FiestaNetworkClient) (bytes : List Nat) :
    (c.append_send bytes).interest.writable = true ∧
    (c.append_send bytes).interest.readable = c.interest.readable := by
  unfold FiestaNetworkClient.append_send
  by_cases hw : c.interest.writable
  · simp [hw]
  · simp [hw, EventSet.union, EventSet.writableOnly]

theorem runClientOps_interest (ops : List ClientOp) :
    ∀ (c c2 : FiestaNetworkClient), runClientOps c ops = some c2 →
      (c.interest.readable = true → c2.interest.readable = true) ∧
      (c.interest.writable = true → c2.interest.writable = true) := by
  induction ops with
  | nil =>
    intro c c2 h
    simp only [runClientOps, Option.some.injEq] at h
    subst h
    exact ⟨id, id⟩
  | cons op rest ih =>
    intro c c2 h
    cases op with
    | readEv r =>
      cases hr : FiestaNetworkClient.readable c r with
      | none =>
        simp only [runClientOps, hr] at h
        exact Option.noConfusion h
      | some x =>
        simp only [runClientOps, hr] at h
        have hint := readable_preserves_interest c r x hr
        have hrec := ih x.1 c2 h
        exact ⟨fun h3 => hrec.1 (by rw [hint]; exact h3),
          fun h3 => hrec.2 (by rw [hint]; exact h3)⟩
    | writeEv w =>
      simp only [runClientOps] at h
      have hint := (writeable_preserves c w).1
      have hrec := ih _ c2 h
      exact ⟨fun h3 => hrec.1 (by rw [hint]; exact h3),
        fun h3 => hrec.2 (by rw [hint]; exact h3)⟩
    | send bytes =>
      simp only [runClientOps] at h
      have hint := append_send_interest c bytes
      have hrec := ih _ c2 h
      exact ⟨fun h3 => hrec.1 (by rw [hint.2]; exact h3),
        fun h3 => hrec.2 hint.1⟩

/-- C7: a fresh connection watches all events (so readable in particular);
along every panic-free sequence of readable, writeable and append_send
operations the interest set never loses readable or writable once present,
and append_send always leaves writable present while preserving readable;
hence every state reachable from construction still watches readable. -/
theorem C7_interest_invariant :
    (∀ id, (FiestaNetworkClient.new id).interest.readable = true ∧
      (FiestaNetworkClient.new id).interest.writable = true) ∧
    (∀ c bytes,
      (FiestaNetworkClient.append_send c bytes).interest.writable = true ∧
      (FiestaNetworkClient.append_send c bytes).interest.readable =
        c.interest.readable) ∧
    (∀ ops c c2, runClientOps c ops = some c2 →
      (c.interest.readable = true → c2.interest.readable = true) ∧
      (c.interest.writable = true → c2.interest.writable = true)) ∧
    (∀ id ops c2, runClientOps (FiestaNetworkClient.new id) ops = some c2 →
      c2.interest.readable = true) := by
  exact ⟨fun id => ⟨rfl, rfl⟩, append_send_interest,
    fun ops c c2 h => runClientOps_interest ops c c2 h,
    fun id ops c2 h => (runClientOps_interest ops _ c2 h).1 rfl⟩

/-- C7 witness: after construction and one append_send the connection
still watches readable (and writable is present). -/
theorem C7_interest_invariant_witness :
    runClientOps (FiestaNetworkClient.new 0) [ClientOp.send [3]] =
      some (FiestaNetworkClient.append_send (FiestaNetworkClient.new 0) [3]) ∧
    (FiestaNetworkClient.append_send
      (FiestaNetworkClient.new 0) [3]).interest.readable = true := by
  refine ⟨by decide, ?_⟩
  exact (C7_interest_invariant.2.2.2) 0 [ClientOp.send [3]]
    (FiestaNetworkClient.append_send (FiestaNetworkClient.new 0) [3])
    (by decide)

/-- C8: for every readiness pass whose event set includes readable, the
jobs collected from the packet queue of the connection after the readable step
are submitted to the processor exactly once each, appended to the
submission trace in the FIFO order of the queue; the queue is left
empty, so nothing is submitted twice on a later pass. -/
theorem C8_jobs_submitted_in_order (h : FiestaHandler) (token : Nat)
    (events : EventSet) (r : ReadResult) (w : WriteEvent)
    (c c1 : FiestaNetworkClient) (d : Bool) (h2 : FiestaHandler)
    (he : events.readable = true)
    (hc : lookupClient h.clients token = some c)
    (hr : FiestaNetworkClient.readable c r = some (c1, d))
    (hrun : h.client_ready token events r w = some h2) :
    h2.processed = h.processed ++
      c1.packet_queue.map (fun p => ⟨p, token⟩) ∧
    (∀ c2, lookupClient h2.clients token = some c2 → c2.packet_queue = []) := by
  obtain ⟨er, ew⟩ := events
  have he2 : er = true := he
  subst he2
  have hlu : lookupClient
      (updateClient h.clients token { c1 with packet_queue := [] }) token =
      some { c1 with packet_queue := [] } :=
    lookupClient_updateClient_self _ _ _ _ hc
  simp only [FiestaHandler.client_ready, hc, hr, if_true] at hrun
  cases ew with
  | false =>
    cases d with
    | true =>
      simp only [if_true] at hrun
      injection hrun with h3
      rw [← h3]
      refine ⟨rfl, fun c2 hc2 => ?_⟩
      rw [lookupClient_removeClient] at hc2
      exact Option.noConfusion hc2
    | false =>
      simp only [if_false, hlu] at hrun
      injection hrun with h3
      rw [← h3]
      refine ⟨rfl, fun c2 hc2 => ?_⟩
      rw [hlu] at hc2
      injection hc2 with h4
      rw [← h4]
  | true =>
    simp only [hlu] at hrun
    cases hd : (d || (FiestaNetworkClient.writeable
        { c1 with packet_queue := [] } w).2) with
    | true =>
      rw [hd] at hrun
      simp only [if_true] at hrun
      injection hrun with h3
      rw [← h3]
      refine ⟨rfl, fun c2 hc2 => ?_⟩
      rw [lookupClient_removeClient] at hc2
      exact Option.noConfusion hc2
    | false =>
      rw [hd] at hrun
      have hlu2 : lookupClient
          (updateClient
            (updateClient h.clients token { c1 with packet_queue := [] })
            token
            (FiestaNetworkClient.writeable { c1 with packet_queue := [] } w).1)
          token =
          some (FiestaNetworkClient.writeable
            { c1 with packet_queue := [] } w).1 :=
        lookupClient_updateClient_self _ _ _ _ hlu
      simp only [if_false, hlu2] at hrun
      injection hrun with h3
      rw [← h3]
      refine ⟨rfl, fun c2 hc2 => ?_⟩
      rw [hlu2] at hc2
      injection hc2 with h4
      rw [← h4]
      exact (writeable_preserves _ _).2

/-- C8 witness: one readable pass on a fresh connection receiving the
frame [2, 7, 0, 1, 2] submits exactly the one extracted packet, in order,
and leaves the queue empty. -/
theorem C8_jobs_submitted_in_order_witness :
    (⟨true, false⟩ : EventSet).readable = true ∧
    lookupClient c8Handler.clients 2 = some c8Client ∧
    FiestaNetworkClient.readable c8Client (.data [2, 7, 0, 1, 2]) =
      some (c8ClientAfter, false) ∧
    c8Handler.client_ready 2 ⟨true, false⟩ (.data [2, 7, 0, 1, 2])
      (.socket (.ok 1)) = some c8HandlerAfter ∧
    c8HandlerAfter.processed = c8Handler.processed ++
      c8ClientAfter.packet_queue.map (fun p => ⟨p, 2⟩) := by
  refine ⟨by decide, by decide, by decide, by decide, ?_⟩
  exact (C8_jobs_submitted_in_order c8Handler 2 ⟨true, false⟩
    (.data [2, 7, 0, 1, 2]) (.socket (.ok 1)) c8Client c8ClientAfter false
    c8HandlerAfter (by decide) (by decide) (by decide) (by decide)).1
